import Mathlib

/-!
Verification of the time-tracker core (tt-local/tt_local/db.py).

Shallow embedding conventions:
* Timestamps are integers counting milliseconds.  The Python code stores
  ISO-8601 strings and compares/sorts them as strings; we assume the canonical
  millisecond formatting, under which string order agrees with instant order.
  The one place the code produces a coarser format -
  strftime("%Y-%m-%dT%H:%M:%SZ") for synthetic events and the lookback bound -
  truncates to whole seconds, which we model exactly with floorSec.
* Python dicts are association lists updated in place (aset), Python sets are
  duplicate-free lists (sadd/sdel); iteration order is insertion order.
* Python truthiness of optional strings ("" and None are falsy) is `truthy`.
* SQL rows are the store list in order; SELECT ... ORDER BY timestamp is a
  stable sort by timestamp (ties are unspecified by SQLite; the store order is
  the representative choice).
-/

/-- Canonical in-memory event, the row of the `events` table.  The opaque
`data` JSON bag is represented by the only three keys the core ever reads:
`app` (window_focus), `action` (agent_session) and `status` (afk_change). -/
structure Event where
  id : String := ""
  timestamp : Int := 0
  type : String := ""
  cwd : Option String := none
  session_id : Option String := none
  stream_id : Option String := none
  assignment_source : String := "inferred"
  app : Option String := none
  action : Option String := none
  status : Option String := none
deriving DecidableEq, Repr

/-- Python truthiness of an optional string: None and "" are falsy. -/
def truthy : Option String → Bool
  | none => false
  | some s => s ≠ ""

/-- ACTIVITY_EVENT_TYPES from db.py: events that reset the idle timer. -/
def isActivityType (t : String) : Bool :=
  t == "user_message" || t == "tmux_pane_focus" || t == "tmux_scroll"

/-- FOCUS_EVENT_TYPES from db.py: events that set focus. -/
def isFocusType (t : String) : Bool :=
  t == "user_message" || t == "tmux_pane_focus" || t == "window_focus"

/-- Truncation of an instant to whole seconds, the effect of
strftime("%Y-%m-%dT%H:%M:%SZ") on a millisecond instant. -/
def floorSec (t : Int) : Int := t - t % 1000

/-- Dict write `m[k] = v`: overwrite in place, else append (insertion order). -/
def aset (m : List (String × α)) (k : String) (v : α) : List (String × α) :=
  match m with
  | [] => [(k, v)]
  | kv :: rest => if kv.1 = k then (k, v) :: rest else kv :: aset rest k v

/-- Dict delete `m.pop(k, None)`. -/
def adel (m : List (String × α)) (k : String) : List (String × α) :=
  m.filter (fun kv => kv.1 ≠ k)

/-- Set insert `s.add(x)`. -/
def sadd (s : List String) (x : String) : List String :=
  if x ∈ s then s else s ++ [x]

/-- Set removal `s.discard(x)`. -/
def sdel (s : List String) (x : String) : List String :=
  s.filter (fun y => y ≠ x)

/-- Python max(events, key=timestamp): first maximum of a nonempty list. -/
def maxByTs (es : List Event) : Option Event :=
  es.foldl
    (fun acc ev =>
      match acc with
      | none => some ev
      | some a => if ev.timestamp > a.timestamp then some ev else acc)
    none

/-- Comparison by timestamp, the ORDER BY timestamp of the store queries. -/
def tsLe (a b : Event) : Prop := a.timestamp ≤ b.timestamp

instance : DecidableRel tsLe := fun _ _ => Int.decLe _ _

instance : IsTotal Event tsLe := ⟨fun a b => Int.le_total a.timestamp b.timestamp⟩

instance : IsTrans Event tsLe := ⟨fun _ _ _ h h' => Int.le_trans h h'⟩

/-- Stable sort by timestamp (SQL ORDER BY timestamp ASC / Python sorted). -/
def sortByTs (es : List Event) : List Event := List.insertionSort tsLe es

/-- Sort rank of the replay tiebreak `e["type"] == "user_message"`. -/
def umRank (ev : Event) : Int := if ev.type = "user_message" then 1 else 0

/-- The replay order key `(timestamp, type == "user_message")`, compared
lexicographically as Python compares tuples. -/
def replayLe (a b : Event) : Prop :=
  a.timestamp < b.timestamp ∨ (a.timestamp = b.timestamp ∧ umRank a ≤ umRank b)

instance : DecidableRel replayLe := fun _ _ => instDecidableOr

instance : IsTotal Event replayLe := by
  constructor
  intro a b
  rcases lt_trichotomy a.timestamp b.timestamp with h | h | h
  · exact Or.inl (Or.inl h)
  · rcases le_total (umRank a) (umRank b) with h' | h'
    · exact Or.inl (Or.inr ⟨h, h'⟩)
    · exact Or.inr (Or.inr ⟨h.symm, h'⟩)
  · exact Or.inr (Or.inl h)

instance : IsTrans Event replayLe := by
  constructor
  intro a b c hab hbc
  rcases hab with h1 | ⟨h1, h1'⟩
  · rcases hbc with h2 | ⟨h2, _⟩
    · exact Or.inl (lt_trans h1 h2)
    · exact Or.inl (h2 ▸ h1)
  · rcases hbc with h2 | ⟨h2, h2'⟩
    · exact Or.inl (h1 ▸ h2)
    · exact Or.inr ⟨h1.trans h2, le_trans h1' h2'⟩

/-- Replay state, the `state` dict threaded through calculate_time. -/
structure ReplayState where
  current_stream : Option String
  active_sessions : List String
  session_last_event : List (String × Int)
  last_activity : Int
  is_afk : Bool
  is_idle : Bool
  previous_stream : Option String
deriving DecidableEq, Repr

/-- The helper scanning pre-window events in timestamp order for session
lifecycle, accumulating (session_starts, session_ends, session_last_event);
the final loop body of _seed_initial_state. -/
def seedSessionScan (events : List Event) :
    List (String × Int) × List String × List (String × Int) :=
  events.foldl
    (fun acc ev =>
      let starts := acc.1
      let ends := acc.2.1
      let sle := acc.2.2
      if ev.type = "agent_session" then
        match ev.session_id with
        | none => acc
        | some sid =>
          if sid = "" then acc
          else if ev.action = some "started" then
            (aset starts sid ev.timestamp, ends, aset sle sid ev.timestamp)
          else if ev.action = some "ended" then
            (starts, sadd ends sid, adel sle sid)
          else acc
      else if ev.type = "agent_tool_use" then
        match ev.session_id with
        | none => acc
        | some sid =>
          if sid ≠ "" ∧ (starts.lookup sid).isSome then
            (starts, ends, aset sle sid ev.timestamp)
          else acc
      else acc)
    ([], [], [])

/-- _seed_initial_state from db.py: reconstruct the state at the window start
from the pre-window events.  Note the hard-coded 120000 ms attention window
(the source comment reads "Default attention window") and the is_idle := true
default kept when no activity event is found. -/
def _seed_initial_state (pre_window_events : List Event) (start_dt : Int)
    (session_timeout_ms : Int) : ReplayState :=
  let state0 : ReplayState :=
    { current_stream := none
      active_sessions := []
      session_last_event := []
      last_activity := start_dt
      is_afk := false
      is_idle := true
      previous_stream := none }
  if pre_window_events.isEmpty then state0
  else
    let focus_events := pre_window_events.filter (fun e => isFocusType e.type)
    let state1 :=
      match maxByTs focus_events with
      | none => state0
      | some latest_focus =>
        if latest_focus.type = "window_focus" then
          if latest_focus.app ≠ some "Terminal" then
            { state0 with current_stream := none }
          else state0
        else { state0 with current_stream := latest_focus.stream_id }
    let activity_events := pre_window_events.filter (fun e => isActivityType e.type)
    let state2 :=
      match maxByTs activity_events with
      | none => state1
      | some latest_activity =>
        { state1 with
            last_activity := latest_activity.timestamp
            is_idle := start_dt - latest_activity.timestamp > 120000 }
    let afk_events := pre_window_events.filter (fun e => e.type = "afk_change")
    let state3 :=
      match maxByTs afk_events with
      | none => state2
      | some latest_afk => { state2 with is_afk := latest_afk.status = some "idle" }
    let scan := seedSessionScan (sortByTs pre_window_events)
    let active :=
      scan.1.foldl
        (fun act kv =>
          if kv.1 ∈ scan.2.1 then act
          else
            match scan.2.2.lookup kv.1 with
            | some t =>
              if start_dt - t ≤ session_timeout_ms then sadd act kv.1 else act
            | none => act)
        []
    { state3 with active_sessions := active, session_last_event := scan.2.2 }

/-- The synthetic `_idle_start` placeholder dict: type and the truncated
timestamp only. -/
def mkIdleEvent (ts : Int) : Event :=
  { type := "_idle_start", timestamp := floorSec ts }

/-- The loop of _insert_idle_boundaries, carrying pending_idle_at. -/
def insertIdleGo (attention_window_ms end_dt : Int) :
    Option Int → List Event → List Event
  | pending, [] =>
    match pending with
    | some p => if p ≤ end_dt then [mkIdleEvent p] else []
    | none => []
  | pending, ev :: rest =>
    let fired :=
      match pending with
      | some p => if ev.timestamp ≥ p then [mkIdleEvent p] else []
      | none => []
    let pending1 :=
      match pending with
      | some p => if ev.timestamp ≥ p then none else some p
      | none => none
    let pending2 :=
      if isActivityType ev.type then some (ev.timestamp + attention_window_ms)
      else pending1
    fired ++ ev :: insertIdleGo attention_window_ms end_dt pending2 rest

/-- _insert_idle_boundaries from db.py. -/
def _insert_idle_boundaries (events : List Event) (state : ReplayState)
    (attention_window_ms end_dt : Int) : List Event :=
  let pending0 :=
    if ¬state.is_idle then some (state.last_activity + attention_window_ms)
    else none
  insertIdleGo attention_window_ms end_dt pending0 events

/-- The synthetic `_session_timeout` placeholder dict. -/
def mkTimeoutEvent (sid : String) (ts : Int) : Event :=
  { type := "_session_timeout", timestamp := floorSec ts, session_id := some sid }

/-- The loop of _insert_session_timeouts, carrying session_timeout_at. -/
def insertTimeoutsGo (session_timeout_ms end_dt : Int) :
    List (String × Int) → List Event → List Event
  | m, [] =>
    (m.filter (fun kv => kv.2 ≤ end_dt)).map (fun kv => mkTimeoutEvent kv.1 kv.2)
  | m, ev :: rest =>
    let fired := m.filter (fun kv => ev.timestamp ≥ kv.2)
    let m1 := m.filter (fun kv => ¬ev.timestamp ≥ kv.2)
    let m2 :=
      if ev.type = "agent_session" then
        match ev.session_id with
        | none => m1
        | some sid =>
          if sid = "" then m1
          else if ev.action = some "started" then
            aset m1 sid (ev.timestamp + session_timeout_ms)
          else if ev.action = some "ended" then adel m1 sid
          else m1
      else if ev.type = "agent_tool_use" then
        match ev.session_id with
        | none => m1
        | some sid =>
          if sid ≠ "" ∧ (m1.lookup sid).isSome then
            aset m1 sid (ev.timestamp + session_timeout_ms)
          else m1
      else m1
    (fired.map (fun kv => mkTimeoutEvent kv.1 kv.2)) ++
      ev :: insertTimeoutsGo session_timeout_ms end_dt m2 rest

/-- _insert_session_timeouts from db.py. -/
def _insert_session_timeouts (events : List Event) (state : ReplayState)
    (session_timeout_ms end_dt : Int) : List Event :=
  let m0 :=
    state.active_sessions.foldl
      (fun m sid =>
        match state.session_last_event.lookup sid with
        | some t => aset m sid (t + session_timeout_ms)
        | none => m)
      []
  insertTimeoutsGo session_timeout_ms end_dt m0 events

/-- _prune_stale_sessions from db.py. -/
def _prune_stale_sessions (state : ReplayState) (current_ts : Int)
    (session_timeout_ms : Int) : ReplayState :=
  let stale :=
    state.active_sessions.filter (fun sid =>
      match state.session_last_event.lookup sid with
      | some t => current_ts - t > session_timeout_ms
      | none => false)
  { state with
      active_sessions := state.active_sessions.filter (fun sid => sid ∉ stale)
      session_last_event := state.session_last_event.filter (fun kv => kv.1 ∉ stale) }

/-- _apply_transition from db.py: the per-event state transition. -/
def _apply_transition (state : ReplayState) (event : Event)
    (session_stream_map : List (String × String)) : ReplayState :=
  if event.type = "_idle_start" then { state with is_idle := true }
  else if event.type = "_session_timeout" then
    match event.session_id with
    | none => state
    | some sid =>
      if sid = "" then state
      else
        { state with
            active_sessions := sdel state.active_sessions sid
            session_last_event := adel state.session_last_event sid }
  else
    let state :=
      if isActivityType event.type then
        { state with is_idle := false, last_activity := event.timestamp }
      else state
    if event.type = "tmux_pane_focus" then
      { state with
          previous_stream := state.current_stream
          current_stream := event.stream_id }
    else if event.type = "window_focus" then
      if event.app = some "Terminal" then
        if truthy state.previous_stream then
          { state with current_stream := state.previous_stream }
        else state
      else
        { state with
            previous_stream := state.current_stream
            current_stream := none }
    else if event.type = "tmux_scroll" then state
    else if event.type = "user_message" then
      match event.session_id with
      | none => state
      | some sid =>
        if sid = "" then state
        else
          let m := session_stream_map.lookup sid
          let stream := if truthy m then m else event.stream_id
          if truthy stream then
            { state with
                previous_stream := state.current_stream
                current_stream := stream }
          else state
    else if event.type = "agent_session" then
      match event.session_id with
      | none => state
      | some sid =>
        if sid = "" then state
        else if event.action = some "started" then
          { state with
              active_sessions := sadd state.active_sessions sid
              session_last_event := aset state.session_last_event sid event.timestamp }
        else if event.action = some "ended" then
          { state with
              active_sessions := sdel state.active_sessions sid
              session_last_event := adel state.session_last_event sid }
        else state
    else if event.type = "agent_tool_use" then
      match event.session_id with
      | none => state
      | some sid =>
        if sid ≠ "" ∧ sid ∈ state.active_sessions then
          { state with session_last_event := aset state.session_last_event sid event.timestamp }
        else state
    else if event.type = "afk_change" then
      if event.status = some "idle" then { state with is_afk := true }
      else { state with is_afk := false }
    else state

/-- The per-stream accumulator {"direct_ms": int, "delegated_ms": int}. -/
structure Totals where
  direct_ms : Int
  delegated_ms : Int
deriving DecidableEq, Repr

/-- The results defaultdict, in insertion order. -/
abbrev Results := List (String × Totals)

/-- results[k]["direct_ms"] += d (creating the entry like a defaultdict). -/
def bumpDirect (res : Results) (k : String) (d : Int) : Results :=
  match res with
  | [] => [(k, { direct_ms := d, delegated_ms := 0 })]
  | kv :: rest =>
    if kv.1 = k then (kv.1, { kv.2 with direct_ms := kv.2.direct_ms + d }) :: rest
    else kv :: bumpDirect rest k d

/-- results[k]["delegated_ms"] += d (creating the entry like a defaultdict). -/
def bumpDelegated (res : Results) (k : String) (d : Int) : Results :=
  match res with
  | [] => [(k, { direct_ms := 0, delegated_ms := d })]
  | kv :: rest =>
    if kv.1 = k then (kv.1, { kv.2 with delegated_ms := kv.2.delegated_ms + d }) :: rest
    else kv :: bumpDelegated rest k d

/-- Direct-attribution guard: not AFK, not idle, current_stream truthy. -/
def eligibleDirect (state : ReplayState) : Bool :=
  !state.is_afk && !state.is_idle && truthy state.current_stream

/-- Steps 3-4 of the replay loop body: direct then delegated attribution of
one interval. -/
def attributeStep (session_stream_map : List (String × String))
    (state : ReplayState) (res : Results) (interval_ms : Int) : Results :=
  let res :=
    if eligibleDirect state then
      bumpDirect res (state.current_stream.getD "") interval_ms
    else res
  state.active_sessions.foldl
    (fun r sid =>
      match session_stream_map.lookup sid with
      | some stream => if stream ≠ "" then bumpDelegated r stream interval_ms else r
      | none => r)
    res

/-- The single-pass accumulation loop of calculate_time, including the final
interval to the window end. -/
def replayLoop (session_stream_map : List (String × String))
    (session_timeout_ms end_dt : Int) :
    List Event → ReplayState → Results → Int → Results
  | [], state, res, last_ts =>
    let final_interval := end_dt - last_ts
    if final_interval > 0 then
      let state := _prune_stale_sessions state last_ts session_timeout_ms
      attributeStep session_stream_map state res final_interval
    else res
  | ev :: rest, state, res, last_ts =>
    let interval := ev.timestamp - last_ts
    let state := _prune_stale_sessions state last_ts session_timeout_ms
    let res := attributeStep session_stream_map state res interval
    let state := _apply_transition state ev session_stream_map
    replayLoop session_stream_map session_timeout_ms end_dt rest state res ev.timestamp

/-- Minimum timestamp of the events of a session that carry a stream
assignment (the GROUP BY subquery of _load_session_stream_map). -/
def sessionMinTs (store : List Event) (sid : String) : Option Int :=
  ((store.filter (fun ev => ev.session_id = some sid ∧ ev.stream_id ≠ none)).map
    (fun ev => ev.timestamp)).min?

/-- _load_session_stream_map from db.py.  Note: the query ranges over the
whole events table, with no time bound. -/
def _load_session_stream_map (store : List Event) : List (String × String) :=
  let rows :=
    store.filter (fun ev =>
      ev.session_id ≠ none ∧ ev.stream_id ≠ none ∧
        some ev.timestamp = sessionMinTs store (ev.session_id.getD ""))
  rows.foldl
    (fun m ev =>
      match ev.session_id, ev.stream_id with
      | some sid, some st => aset m sid st
      | _, _ => m)
    []

/-- The replay stream of calculate_time: window events with synthetic
boundaries inserted, sorted by (timestamp, type == "user_message"). -/
def windowReplayEvents (fetched : List Event) (start_dt end_dt : Int)
    (attention_window_ms session_timeout_ms : Int) : List Event :=
  let events := sortByTs fetched
  let pre_window := events.filter (fun ev => ev.timestamp < start_dt)
  let window0 :=
    events.filter (fun ev => start_dt ≤ ev.timestamp ∧ ev.timestamp ≤ end_dt)
  let state := _seed_initial_state pre_window start_dt session_timeout_ms
  let window1 := _insert_idle_boundaries window0 state attention_window_ms end_dt
  let window2 := _insert_session_timeouts window1 state session_timeout_ms end_dt
  List.insertionSort replayLe window2

/-- calculate_time after its two store reads (session map and ranged fetch). -/
def calculate_time_core (session_stream_map : List (String × String))
    (fetched : List Event) (start_dt end_dt : Int)
    (attention_window_ms session_timeout_ms : Int) : Results :=
  let events := sortByTs fetched
  let pre_window := events.filter (fun ev => ev.timestamp < start_dt)
  let state := _seed_initial_state pre_window start_dt session_timeout_ms
  let window3 :=
    windowReplayEvents fetched start_dt end_dt attention_window_ms session_timeout_ms
  replayLoop session_stream_map session_timeout_ms end_dt window3 state [] start_dt

/-- Strip trailing slash characters, Python str.rstrip("/"). -/
def rstripSlashes (s : String) : String :=
  String.mk ((s.data.reverse.dropWhile (fun c => c = '/')).reverse)

/-- Normalization of an event cwd in run_stream_inference:
`cwd = event["cwd"] or ""` then `cwd.rstrip("/") or cwd`. -/
def normalizeCwd (cwd : Option String) : String :=
  let c := match cwd with
    | none => ""
    | some s => s
  let r := rstripSlashes c
  if r = "" then c else r

/-- get_unassigned_events from db.py: null stream and not user-pinned,
ordered by timestamp. -/
def get_unassigned_events (store : List Event) : List Event :=
  sortByTs (store.filter (fun ev =>
    ev.stream_id = none ∧ ev.assignment_source ≠ "user"))

/-- assign_events_to_stream from db.py: UPDATE events SET stream_id,
assignment_source = 'inferred' WHERE id IN event_ids.  (The 500-row batching
of the source has the same net effect as one update.) -/
def assign_events_to_stream (store : List Event) (event_ids : List String)
    (stream_id : String) : List Event :=
  store.map (fun ev =>
    if ev.id ∈ event_ids then
      { ev with stream_id := some stream_id, assignment_source := "inferred" }
    else ev)

/-- Fresh stream ids issued by create_stream, modelled as a counter-indexed
supply in place of uuid4. -/
def streamIdOf (n : Nat) : String := "stream-" ++ toString n

/-- Deduplicate keeping first occurrences: the key order of a Python dict
built by insertion (the defaultdict cwd_groups). -/
def dedupFirst (l : List String) : List String :=
  l.foldl (fun acc x => if x ∈ acc then acc else acc ++ [x]) []

/-- The inner clustering walk of run_stream_inference: split a cwd group
(already in timestamp order) after every gap strictly greater than the
threshold; the gap is measured from the previous event of the cluster. -/
def clustersAux (gap_threshold_ms : Int) (cur : List Event) (lastTs : Int) :
    List Event → List (List Event)
  | [] => [cur]
  | ev :: rest =>
    if ev.timestamp - lastTs > gap_threshold_ms then
      cur :: clustersAux gap_threshold_ms [ev] ev.timestamp rest
    else clustersAux gap_threshold_ms (cur ++ [ev]) ev.timestamp rest

/-- Temporal clusters of one cwd group. -/
def splitClusters (gap_threshold_ms : Int) : List Event → List (List Event)
  | [] => []
  | ev :: rest => clustersAux gap_threshold_ms [ev] ev.timestamp rest

/-- The assignment loop of run_stream_inference over the flattened cluster
list (the source's nested group/cluster loops visit exactly this sequence):
each cluster gets a fresh stream and its events are assigned to it.
Accumulator: (store, stream-id counter, assigned_count). -/
def assignClusters : List (List Event) → List Event × Nat × Nat → List Event × Nat × Nat
  | [], acc => acc
  | cluster :: rest, acc =>
    assignClusters rest
      (assign_events_to_stream acc.1 (cluster.map (fun ev => ev.id)) (streamIdOf acc.2.1),
        acc.2.1 + 1, acc.2.2 + cluster.length)

/-- run_stream_inference from db.py.  Returns the updated store, the next
fresh-stream counter and the number of events assigned.  (Stream rows are not
modelled: only event assignment is observable to the claims.) -/
def run_stream_inference (store : List Event) (gap_threshold_ms : Int)
    (ctr : Nat) : List Event × Nat × Nat :=
  let events := get_unassigned_events store
  if events = [] then (store, ctr, 0)
  else
    let keys := dedupFirst (events.map (fun ev => normalizeCwd ev.cwd))
    let clusters :=
      (keys.map (fun k =>
        splitClusters gap_threshold_ms
          (events.filter (fun ev => normalizeCwd ev.cwd = k)))).flatten
    assignClusters clusters (store, ctr, 0)

/-- calculate_time from db.py.  The store is read exactly twice: the
session -> stream map over the whole table, and the ranged fetch from the
second-truncated lookback bound (strftime) up to (exclusive) the end. -/
def calculate_time (store : List Event) (start end_ : Int)
    (attention_window_ms session_timeout_ms : Int) : Results :=
  let session_stream_map := _load_session_stream_map store
  let lookback_ms := max attention_window_ms session_timeout_ms
  let lookback_start := floorSec (start - lookback_ms)
  let fetched :=
    store.filter (fun ev => lookback_start ≤ ev.timestamp ∧ ev.timestamp < end_)
  calculate_time_core session_stream_map fetched start end_
    attention_window_ms session_timeout_ms

/-! ### Support lemmas -/

theorem foldl_maxByTs_some (es : List Event) (a : Event) :
    (es.foldl
      (fun acc ev =>
        match acc with
        | none => some ev
        | some a => if ev.timestamp > a.timestamp then some ev else acc)
      (some a)).isSome := by
  induction es generalizing a with
  | nil => rfl
  | cons x xs ih =>
    simp only [List.foldl_cons]
    by_cases h : x.timestamp > a.timestamp
    · simpa [h] using ih x
    · simpa [h] using ih a

theorem maxByTs_eq_none_iff (es : List Event) : maxByTs es = none ↔ es = [] := by
  constructor
  · intro h
    cases es with
    | nil => rfl
    | cons x xs =>
      exfalso
      have := foldl_maxByTs_some xs x
      simp only [maxByTs, List.foldl_cons] at h
      rw [h] at this
      simp at this
  · intro h
    subst h
    rfl

/-! ### C10: user_message with null session id leaves focus untouched -/

/-- C10: applying the state transition for a user_message event whose
session_id is null leaves current_stream and previous_stream unchanged, even
when the event carries a non-null stream_id: the fallback to the event's own
stream_id is only reachable through a non-null session_id. -/
theorem user_message_null_session_keeps_focus (state : ReplayState)
    (event : Event) (session_stream_map : List (String × String))
    (htype : event.type = "user_message") (hsid : event.session_id = none) :
    (_apply_transition state event session_stream_map).current_stream =
        state.current_stream ∧
      (_apply_transition state event session_stream_map).previous_stream =
        state.previous_stream := by
  simp [_apply_transition, htype, hsid, isActivityType]

/-- Witness for C10 at a concrete state and event that does carry a
stream_id. -/
theorem user_message_null_session_keeps_focus_witness :
    (_apply_transition
        { current_stream := some "C", active_sessions := [],
          session_last_event := [], last_activity := 0, is_afk := false,
          is_idle := true, previous_stream := some "P" }
        { id := "m", timestamp := 42, type := "user_message",
          stream_id := some "Z" }
        [("S", "X")]).current_stream = some "C" ∧
      (_apply_transition
        { current_stream := some "C", active_sessions := [],
          session_last_event := [], last_activity := 0, is_afk := false,
          is_idle := true, previous_stream := some "P" }
        { id := "m", timestamp := 42, type := "user_message",
          stream_id := some "Z" }
        [("S", "X")]).previous_stream = some "P" :=
  user_message_null_session_keeps_focus _ _ _ (by decide) (by decide)

/-! ### C3: the seeded is_idle flag -/

theorem seed_idle_and_last_activity (pre : List Event) (start_dt session_timeout_ms : Int) :
    (_seed_initial_state pre start_dt session_timeout_ms).is_idle =
      (match maxByTs (pre.filter (fun e => isActivityType e.type)) with
        | none => true
        | some a => decide (start_dt - a.timestamp > 120000)) ∧
    (_seed_initial_state pre start_dt session_timeout_ms).last_activity =
      (match maxByTs (pre.filter (fun e => isActivityType e.type)) with
        | none => start_dt
        | some a => a.timestamp) := by
  by_cases hempty : pre.isEmpty
  · have h0 : pre = [] := List.isEmpty_iff.mp hempty
    subst h0
    simp [_seed_initial_state, maxByTs]
  · simp only [_seed_initial_state, hempty, if_false]
    cases hf : maxByTs (pre.filter fun e => isFocusType e.type) <;>
      cases ha : maxByTs (pre.filter fun e => isActivityType e.type) <;>
        cases hg : maxByTs (pre.filter fun e => decide (e.type = "afk_change")) <;>
          simp only [hf, ha, hg] <;> (try split) <;> (try split) <;> simp_all

/-- C3 (amended): the seeded is_idle is true iff the pre-window contains no
activity-class event at all, or the latest one is more than 120000 ms (the
hard-coded default attention window, not the attention_window_ms parameter,
which _seed_initial_state does not receive) before the window start. -/
theorem seed_is_idle_iff (pre : List Event) (start_dt session_timeout_ms : Int) :
    (_seed_initial_state pre start_dt session_timeout_ms).is_idle = true ↔
      (pre.filter (fun e => isActivityType e.type) = [] ∨
        start_dt - (_seed_initial_state pre start_dt session_timeout_ms).last_activity
          > 120000) := by
  obtain ⟨h1, h2⟩ := seed_idle_and_last_activity pre start_dt session_timeout_ms
  cases ha : maxByTs (pre.filter fun e => isActivityType e.type) with
  | none =>
    have hnil := (maxByTs_eq_none_iff _).mp ha
    rw [ha] at h1 h2
    rw [h1]
    simp [hnil]
  | some a =>
    have hne : ¬pre.filter (fun e => isActivityType e.type) = [] := by
      intro hc
      rw [(maxByTs_eq_none_iff _).mpr hc] at ha
      exact Option.noConfusion ha
    rw [ha] at h1 h2
    rw [h1, h2]
    simp [hne]

/-- Counterexample to C3 as stated: with an empty pre-window the claim's
formula (last_activity defaults to start, so start - last_activity = 0 is not
greater than any non-negative attention window) demands is_idle = false, but
the code seeds is_idle = true. -/
theorem seed_is_idle_claim_false :
    (_seed_initial_state [] 0 1800000).is_idle = true ∧
      ¬((0 : Int) - (_seed_initial_state [] 0 1800000).last_activity > 120000) := by
  constructor
  · decide
  · decide

/-! ### C5: user_message sorts after other types at equal timestamps -/

/-- C5: in the replay order used by attribution (sort key
(timestamp, type == "user_message")), whenever an earlier event is a
user_message and a later event carries the same timestamp, the later event is
a user_message as well - equivalently, every non-user_message event at a
timestamp precedes every user_message at that timestamp. -/
theorem replay_order_user_message_last (fetched : List Event)
    (start_dt end_dt attention_window_ms session_timeout_ms : Int) :
    List.Pairwise
      (fun a b => a.timestamp = b.timestamp →
        a.type = "user_message" → b.type = "user_message")
      (windowReplayEvents fetched start_dt end_dt attention_window_ms
        session_timeout_ms) := by
  have hs : List.Sorted replayLe
      (windowReplayEvents fetched start_dt end_dt attention_window_ms
        session_timeout_ms) := by
    unfold windowReplayEvents
    exact List.sorted_insertionSort replayLe _
  refine List.Pairwise.imp ?_ hs
  intro a b hab hts hum
  rcases hab with h | ⟨_, h'⟩
  · exact absurd hts (ne_of_lt h)
  · by_contra hb
    simp [umRank, hum, hb] at h'

/-! ### C2: locality of attribution -/

/-- C2 (amended): attribution on [s, e] is a pure function of the events
fetched from the second-truncated lookback bound floorSec(s - L) up to e
(L = max attention_window session_timeout) TOGETHER WITH the session-to-stream
map, which _load_session_stream_map computes from the entire store with no
time bound.  Two stores agreeing on both projections yield identical
results. -/
theorem calculate_time_locality (u v : List Event)
    (start end_ attention_window_ms session_timeout_ms : Int)
    (hmap : _load_session_stream_map u = _load_session_stream_map v)
    (hfetch :
      u.filter (fun ev =>
          floorSec (start - max attention_window_ms session_timeout_ms) ≤ ev.timestamp ∧
            ev.timestamp < end_) =
        v.filter (fun ev =>
          floorSec (start - max attention_window_ms session_timeout_ms) ≤ ev.timestamp ∧
            ev.timestamp < end_)) :
    calculate_time u start end_ attention_window_ms session_timeout_ms =
      calculate_time v start end_ attention_window_ms session_timeout_ms := by
  simp only [calculate_time]
  rw [hmap, hfetch]

/-- Witness for C2 (amended): dropping an old event that carries neither a
session_id nor a stream_id leaves the result unchanged. -/
theorem calculate_time_locality_witness :
    calculate_time
        [{ id := "old", timestamp := 0, type := "tmux_scroll" },
         { id := "win", timestamp := 100000, type := "tmux_pane_focus",
           stream_id := some "X" }]
        100000 103000 1000 1000 =
      calculate_time
        [{ id := "win", timestamp := 100000, type := "tmux_pane_focus",
           stream_id := some "X" }]
        100000 103000 1000 1000 :=
  calculate_time_locality _ _ _ _ _ _ (by decide) (by decide)

/-- Counterexample to C2 as stated: the second store is the first with all
events strictly before s - L = 99000 deleted (both agree on [s - L, e]), yet
the results differ, because the deleted event at timestamp 0 carries the only
(session_id, stream_id) pair and the session map is built from the whole
store. -/
theorem calculate_time_locality_claim_false :
    calculate_time
        [{ id := "old", timestamp := 0, type := "tmux_scroll",
           session_id := some "A", stream_id := some "X" },
         { id := "win", timestamp := 100000, type := "agent_session",
           session_id := some "A", action := some "started" }]
        100000 103000 1000 1000 ≠
      calculate_time
        ([{ id := "old", timestamp := 0, type := "tmux_scroll",
            session_id := some "A", stream_id := some "X" },
          { id := "win", timestamp := 100000, type := "agent_session",
            session_id := some "A", action := some "started" }].filter
          (fun ev => (99000 : Int) ≤ ev.timestamp))
        100000 103000 1000 1000 := by
  decide

/-! ### C6: degenerate windows -/

/-- C6 (amended): when s ≥ e the code does not short-circuit (it still queries
the session map and the lookback range); the result is {} provided the
fetched lookback range [floorSec(s - L), e) holds no events, since then no
seeded synthetic marker can reach the replay list. -/
theorem calculate_time_degenerate_empty (store : List Event)
    (start end_ attention_window_ms session_timeout_ms : Int)
    (hse : end_ ≤ start)
    (hfetch :
      store.filter (fun ev =>
          floorSec (start - max attention_window_ms session_timeout_ms) ≤ ev.timestamp ∧
            ev.timestamp < end_) = []) :
    calculate_time store start end_ attention_window_ms session_timeout_ms = [] := by
  simp only [calculate_time]
  rw [hfetch]
  simp only [calculate_time_core, windowReplayEvents, sortByTs, List.insertionSort,
    List.filter_nil, _seed_initial_state, List.isEmpty_nil, if_true,
    _insert_idle_boundaries, _insert_session_timeouts, insertIdleGo, insertTimeoutsGo,
    List.foldl_nil, List.map_nil, replayLoop]
  have : ¬end_ - start > 0 := by omega
  simp [this]

/-- Witness for C6 (amended): an inverted window over a store whose only
event lies outside the lookback range. -/
theorem calculate_time_degenerate_empty_witness :
    calculate_time [{ id := "x", timestamp := 500000, type := "tmux_scroll" }]
        200000 100000 120000 1800000 = [] :=
  calculate_time_degenerate_empty _ _ _ _ _ (by decide) (by decide)

/-- Counterexample to C6 as stated: s = e (so s ≥ e) but the result is not {}:
a pre-window focus event seeds a pending idle marker at 199500, which is
materialized (truncated to 199000, before the window start) and makes the
single replay interval negative, so the result carries a stream entry with
direct_ms = -1000. -/
theorem calculate_time_degenerate_claim_false :
    calculate_time
        [{ id := "f", timestamp := 199000, type := "tmux_pane_focus",
           stream_id := some "X" }]
        200000 200000 500 1000 =
      [("X", { direct_ms := -1000, delegated_ms := 0 })] := by
  decide

/-! ### C7: synthetic _idle_start insertion -/

theorem insertIdleGo_marker_mem (attention_window_ms end_dt p : Int)
    (hpe : p ≤ end_dt) :
    ∀ es : List Event,
      (∀ ev' ∈ es, isActivityType ev'.type = true → ¬ev'.timestamp < p) →
        mkIdleEvent p ∈ insertIdleGo attention_window_ms end_dt (some p) es := by
  intro es
  induction es with
  | nil =>
    intro _
    simp [insertIdleGo, hpe]
  | cons ev rest ih =>
    intro h
    simp only [insertIdleGo]
    by_cases hge : ev.timestamp ≥ p
    · simp [hge]
    · have hact : ¬isActivityType ev.type = true := by
        intro ha
        exact (h ev (List.mem_cons_self ev rest) ha) (by omega)
      simp only [hge, if_false, Bool.not_eq_true] at hact ⊢
      simp only [hact, if_false, Bool.false_eq_true]
      have hmem := ih (fun ev' hm ha => h ev' (List.mem_cons_of_mem ev hm) ha)
      simp [hmem]

theorem insertIdleGo_reaches_activity (attention_window_ms end_dt : Int)
    (ev : Event) (post : List Event)
    (hact : isActivityType ev.type = true)
    (hquiet : ∀ ev' ∈ post,
      isActivityType ev'.type = true →
        ¬ev'.timestamp < ev.timestamp + attention_window_ms)
    (hin : ev.timestamp + attention_window_ms ≤ end_dt) :
    ∀ (pre : List Event) (pending : Option Int),
      mkIdleEvent (ev.timestamp + attention_window_ms) ∈
        insertIdleGo attention_window_ms end_dt pending (pre ++ ev :: post) := by
  intro pre
  induction pre with
  | nil =>
    intro pending
    simp only [List.nil_append, insertIdleGo, hact, if_true]
    have hmem := insertIdleGo_marker_mem attention_window_ms end_dt _ hin post hquiet
    simp [hmem]
  | cons x pre' ih =>
    intro pending
    simp only [List.cons_append, insertIdleGo]
    exact List.mem_append_right _ (List.mem_cons_of_mem _ (ih _))

/-- C7 (amended): whenever an activity-class event is followed by no
activity-class event earlier than last_activity + attention_window_ms, and
that instant is at most the window end, a synthetic _idle_start event is
inserted into the replay stream - but its timestamp is
floorSec(last_activity + attention_window_ms), the instant truncated to whole
seconds by strftime("%Y-%m-%dT%H:%M:%SZ"), not the exact instant. -/
theorem idle_start_marker_inserted (state : ReplayState)
    (attention_window_ms end_dt : Int) (pre post : List Event) (ev : Event)
    (hact : isActivityType ev.type = true)
    (hquiet : ∀ ev' ∈ post,
      isActivityType ev'.type = true →
        ¬ev'.timestamp < ev.timestamp + attention_window_ms)
    (hin : ev.timestamp + attention_window_ms ≤ end_dt) :
    mkIdleEvent (ev.timestamp + attention_window_ms) ∈
      _insert_idle_boundaries (pre ++ ev :: post) state attention_window_ms
        end_dt := by
  unfold _insert_idle_boundaries
  exact insertIdleGo_reaches_activity attention_window_ms end_dt ev post hact
    hquiet hin pre _

/-- Witness for C7 (amended) at a second-aligned instant: a scroll at 1000 ms
with a 2000 ms attention window and no later activity yields the marker at
3000 ms. -/
theorem idle_start_marker_inserted_witness :
    mkIdleEvent 3000 ∈
      _insert_idle_boundaries
        ([] ++ { id := "s", timestamp := 1000, type := "tmux_scroll" } :: [])
        { current_stream := none, active_sessions := [],
          session_last_event := [], last_activity := 0, is_afk := false,
          is_idle := true, previous_stream := none }
        2000 10000 :=
  idle_start_marker_inserted _ 2000 10000 [] [] _ (by decide)
    (by intro ev' h; exact absurd h (List.not_mem_nil ev')) (by decide)

/-- Counterexample to C7 as stated: last activity at 500 ms with a 1000 ms
attention window and no later activity; the claim demands a _idle_start
marker timestamped exactly 1500, but the inserted marker is timestamped 1000
(strftime truncates to whole seconds). -/
theorem idle_start_marker_claim_false :
    ((_insert_idle_boundaries [{ id := "s", timestamp := 500, type := "tmux_scroll" }]
        { current_stream := none, active_sessions := [],
          session_last_event := [], last_activity := 0, is_afk := false,
          is_idle := true, previous_stream := none }
        1000 10000).any
      (fun x => x.type == "_idle_start" && x.timestamp == 1500)) = false ∧
    ((_insert_idle_boundaries [{ id := "s", timestamp := 500, type := "tmux_scroll" }]
        { current_stream := none, active_sessions := [],
          session_last_event := [], last_activity := 0, is_afk := false,
          is_idle := true, previous_stream := none }
        1000 10000).any
      (fun x => x.type == "_idle_start" && x.timestamp == 1000)) = true := by
  constructor
  · decide
  · decide

/-! ### C4: non-negativity fails - no clamp in the source -/

/-- C4 failing input: the code has no clamp on the per-step interval
(interval_ms = event_ts - last_ts, line 781 of db.py).  A pre-window focus at
199000 ms with attention_window_ms = 500 seeds a pending idle instant at
199500 < s = 200000; the materialized marker precedes the window start, the
first replay interval is -1000 ms, and the returned direct_ms is negative. -/
theorem calculate_time_negative_direct :
    calculate_time
        [{ id := "g", timestamp := 199000, type := "tmux_pane_focus",
           stream_id := some "Y" }]
        200000 210000 500 1000 =
      [("Y", { direct_ms := -1000, delegated_ms := 0 })] := by
  decide

/-! ### C8/C9: stream inference -/

/-- The per-event effect of the whole assignment loop, starting at stream
counter c. -/
def assignFun : List (List Event) → Nat → Event → Event
  | [], _, ev => ev
  | cluster :: rest, c, ev =>
    assignFun rest (c + 1)
      (if ev.id ∈ cluster.map (fun x => x.id) then
        { ev with stream_id := some (streamIdOf c), assignment_source := "inferred" }
      else ev)

theorem assignClusters_fst_map (clusters : List (List Event)) :
    ∀ (st : List Event) (c n : Nat),
      (assignClusters clusters (st, c, n)).1 = st.map (assignFun clusters c) := by
  induction clusters with
  | nil =>
    intro st c n
    simp [assignClusters, assignFun]
  | cons cluster rest ih =>
    intro st c n
    simp only [assignClusters, assign_events_to_stream]
    rw [ih, List.map_map]
    rfl

theorem assignFun_keeps_id (clusters : List (List Event)) :
    ∀ (c : Nat) (ev : Event), (assignFun clusters c ev).id = ev.id := by
  induction clusters with
  | nil => intro c ev; rfl
  | cons cluster rest ih =>
    intro c ev
    simp only [assignFun]
    rw [ih]
    by_cases h : ev.id ∈ cluster.map (fun x => x.id) <;> simp [h]

theorem assignFun_fix (clusters : List (List Event)) :
    ∀ (c : Nat) (ev : Event),
      (∀ cluster ∈ clusters, ev.id ∉ cluster.map (fun x => x.id)) →
        assignFun clusters c ev = ev := by
  induction clusters with
  | nil => intro c ev _; rfl
  | cons cluster rest ih =>
    intro c ev h
    simp only [assignFun, h cluster (List.mem_cons_self cluster rest), if_false]
    exact ih (c + 1) ev (fun cl hcl => h cl (List.mem_cons_of_mem cluster hcl))

theorem clustersAux_flatten (gap : Int) :
    ∀ (es cur : List Event) (t : Int),
      (clustersAux gap cur t es).flatten = cur ++ es := by
  intro es
  induction es with
  | nil => intro cur t; simp [clustersAux]
  | cons ev rest ih =>
    intro cur t
    simp only [clustersAux]
    by_cases h : ev.timestamp - t > gap
    · simp [h, ih]
    · simp [h, ih]

theorem splitClusters_flatten (gap : Int) (es : List Event) :
    (splitClusters gap es).flatten = es := by
  cases es with
  | nil => rfl
  | cons ev rest => simp [splitClusters, clustersAux_flatten]

theorem mem_sortByTs (es : List Event) (x : Event) : x ∈ sortByTs es ↔ x ∈ es :=
  (List.perm_insertionSort tsLe es).mem_iff

theorem mem_dedupFirst_aux (l : List String) :
    ∀ (acc : List String) (x : String),
      (x ∈ l.foldl (fun acc y => if y ∈ acc then acc else acc ++ [y]) acc) ↔
        (x ∈ acc ∨ x ∈ l) := by
  induction l with
  | nil => intro acc x; simp
  | cons y l' ih =>
    intro acc x
    simp only [List.foldl_cons]
    rw [ih]
    by_cases hy : y ∈ acc
    · simp only [hy, if_true, List.mem_cons]
      constructor
      · rintro (h | h)
        · exact Or.inl h
        · exact Or.inr (Or.inr h)
      · rintro (h | h | h)
        · exact Or.inl h
        · exact Or.inl (h ▸ hy)
        · exact Or.inr h
    · simp only [hy, if_false, List.mem_append, List.mem_singleton, List.mem_cons]
      tauto

theorem mem_dedupFirst (l : List String) (x : String) :
    x ∈ dedupFirst l ↔ x ∈ l := by
  unfold dedupFirst
  rw [mem_dedupFirst_aux]
  simp

/-- Every event of every cluster visited by run_stream_inference is one of
the unassigned events. -/
theorem clusters_subset_unassigned (store : List Event) (gap : Int)
    (cluster : List Event) (x : Event)
    (hcl : cluster ∈
      ((dedupFirst ((get_unassigned_events store).map (fun ev => normalizeCwd ev.cwd))).map
        (fun k =>
          splitClusters gap
            ((get_unassigned_events store).filter
              (fun ev => normalizeCwd ev.cwd = k)))).flatten)
    (hx : x ∈ cluster) : x ∈ get_unassigned_events store := by
  rw [List.mem_flatten] at hcl
  obtain ⟨groups, hg, hcl'⟩ := hcl
  rw [List.mem_map] at hg
  obtain ⟨k, _, rfl⟩ := hg
  have : x ∈ (splitClusters gap
      ((get_unassigned_events store).filter
        (fun ev => normalizeCwd ev.cwd = k))).flatten := by
    rw [List.mem_flatten]
    exact ⟨cluster, hcl', hx⟩
  rw [splitClusters_flatten] at this
  exact List.mem_of_mem_filter this

theorem mem_unassigned_of_mem (store : List Event) (x : Event)
    (h : x ∈ get_unassigned_events store) :
    x ∈ store ∧ x.stream_id = none ∧ x.assignment_source ≠ "user" := by
  unfold get_unassigned_events at h
  rw [mem_sortByTs, List.mem_filter] at h
  refine ⟨h.1, ?_⟩
  have := h.2
  simp at this
  exact this

/-- run_stream_inference never changes the multiset of event ids (it only
rewrites stream_id / assignment_source). -/
theorem run_stream_inference_ids (store : List Event) (gap : Int) (ctr : Nat) :
    (run_stream_inference store gap ctr).1.map Event.id = store.map Event.id := by
  unfold run_stream_inference
  by_cases h : get_unassigned_events store = []
  · simp [h]
  · simp only [h, if_false]
    rw [assignClusters_fst_map, List.map_map]
    apply List.map_congr_left
    intro ev _
    exact assignFun_keeps_id _ _ ev

/-- A user-pinned event is untouched by one inference run: it stays in the
store verbatim, and (given primary-key-unique ids) it is the only event with
its id. -/
theorem run_stream_inference_user_fixed (store : List Event) (gap : Int)
    (ctr : Nat) (ev : Event) (hnodup : (store.map Event.id).Nodup)
    (hmem : ev ∈ store) (huser : ev.assignment_source = "user") :
    ev ∈ (run_stream_inference store gap ctr).1 ∧
      ∀ ev' ∈ (run_stream_inference store gap ctr).1, ev'.id = ev.id → ev' = ev := by
  have hfixgen : ∀ clusters c,
      (∀ cluster ∈ clusters, ∀ x ∈ cluster, x ∈ get_unassigned_events store) →
        assignFun clusters c ev = ev := by
    intro clusters c hsub
    apply assignFun_fix
    intro cluster hcl hin
    rw [List.mem_map] at hin
    obtain ⟨x, hx, hxid⟩ := hin
    have hxu := mem_unassigned_of_mem store x (hsub cluster hcl x hx)
    have : x = ev := List.inj_on_of_nodup_map hnodup hxu.1 hmem hxid
    subst this
    exact hxu.2.2 huser
  unfold run_stream_inference
  by_cases h : get_unassigned_events store = []
  · simp only [h, if_true]
    refine ⟨hmem, fun ev' hm hid => ?_⟩
    exact List.inj_on_of_nodup_map hnodup hm hmem hid
  · simp only [h, if_false]
    rw [assignClusters_fst_map]
    have hfix := hfixgen _ ctr (fun cl hcl x hx =>
      clusters_subset_unassigned store gap cl x hcl hx)
    constructor
    · rw [List.mem_map]
      exact ⟨ev, hmem, hfix⟩
    · intro ev' hm hid
      rw [List.mem_map] at hm
      obtain ⟨x, hx, rfl⟩ := hm
      have hxid : x.id = ev.id := by rw [← assignFun_keeps_id _ _ x]; exact hid
      have : x = ev := List.inj_on_of_nodup_map hnodup hx hmem hxid
      subst this
      exact hfixgen _ ctr (fun cl hcl x hx =>
        clusters_subset_unassigned store gap cl x hcl hx)

/-- After one inference run no event is left unassigned (null stream and not
user-pinned). -/
theorem run_stream_inference_covers (store : List Event) (gap : Int) (ctr : Nat) :
    ∀ ev' ∈ (run_stream_inference store gap ctr).1,
      ¬(ev'.stream_id = none ∧ ev'.assignment_source ≠ "user") := by
  have hcov : ∀ (clusters : List (List Event)) (st : List Event) (c n : Nat),
      (∀ ev ∈ st, ¬(ev.stream_id = none ∧ ev.assignment_source ≠ "user") ∨
        ∃ cl ∈ clusters, ev.id ∈ cl.map (fun x => x.id)) →
      ∀ ev' ∈ (assignClusters clusters (st, c, n)).1,
        ¬(ev'.stream_id = none ∧ ev'.assignment_source ≠ "user") := by
    intro clusters
    induction clusters with
    | nil =>
      intro st c n h ev' hm
      rcases h ev' hm with h' | h'
      · exact h'
      · obtain ⟨cl, hcl, _⟩ := h'
        exact absurd hcl (List.not_mem_nil cl)
    | cons cluster rest ih =>
      intro st c n h ev' hm
      simp only [assignClusters] at hm
      refine ih _ _ _ ?_ ev' hm
      intro ev hev
      unfold assign_events_to_stream at hev
      rw [List.mem_map] at hev
      obtain ⟨x, hx, rfl⟩ := hev
      by_cases hid : x.id ∈ cluster.map (fun y => y.id)
      · simp [hid]
      · simp only [hid, if_false]
        rcases h x hx with h' | ⟨cl, hcl, hcid⟩
        · exact Or.inl h'
        · rcases List.mem_cons.mp hcl with rfl | hcl'
          · exact absurd hcid hid
          · exact Or.inr ⟨cl, hcl', hcid⟩
  unfold run_stream_inference
  by_cases h : get_unassigned_events store = []
  · simp only [h, if_true]
    intro ev' hm hcontra
    have : ev' ∈ get_unassigned_events store := by
      unfold get_unassigned_events
      rw [mem_sortByTs, List.mem_filter]
      refine ⟨hm, ?_⟩
      simp [hcontra.1, hcontra.2]
    rw [h] at this
    exact absurd this (List.not_mem_nil ev')
  · simp only [h, if_false]
    apply hcov
    intro ev hev
    by_cases hp : ev.stream_id = none ∧ ev.assignment_source ≠ "user"
    · right
      have hmemu : ev ∈ get_unassigned_events store := by
        unfold get_unassigned_events
        rw [mem_sortByTs, List.mem_filter]
        refine ⟨hev, ?_⟩
        simp [hp.1, hp.2]
      set es := get_unassigned_events store with hes
      have hkey : normalizeCwd ev.cwd ∈
          dedupFirst (es.map (fun e => normalizeCwd e.cwd)) := by
        rw [mem_dedupFirst, List.mem_map]
        exact ⟨ev, hmemu, rfl⟩
      have hgrp : ev ∈ es.filter (fun e => normalizeCwd e.cwd = normalizeCwd ev.cwd) := by
        rw [List.mem_filter]
        exact ⟨hmemu, by simp⟩
      have : ev ∈ (splitClusters gap
          (es.filter (fun e => normalizeCwd e.cwd = normalizeCwd ev.cwd))).flatten := by
        rw [splitClusters_flatten]
        exact hgrp
      rw [List.mem_flatten] at this
      obtain ⟨cl, hcl, hin⟩ := this
      refine ⟨cl, ?_, ?_⟩
      · rw [List.mem_flatten]
        refine ⟨splitClusters gap
          (es.filter (fun e => normalizeCwd e.cwd = normalizeCwd ev.cwd)), ?_, hcl⟩
        rw [List.mem_map]
        exact ⟨normalizeCwd ev.cwd, hkey, rfl⟩
      · rw [List.mem_map]
        exact ⟨ev, hin, rfl⟩
    · exact Or.inl hp

/-- C9: stream inference is idempotent.  After any run, a further run (with
any fresh-id counter) finds no unassigned events, leaves the store entirely
unchanged, and reports 0 assigned events. -/
theorem run_stream_inference_idempotent (store : List Event) (gap_threshold_ms : Int)
    (ctr ctr' : Nat) :
    run_stream_inference (run_stream_inference store gap_threshold_ms ctr).1
        gap_threshold_ms ctr' =
      ((run_stream_inference store gap_threshold_ms ctr).1, ctr', 0) := by
  have h := run_stream_inference_covers store gap_threshold_ms ctr
  have hempty : get_unassigned_events
      (run_stream_inference store gap_threshold_ms ctr).1 = [] := by
    unfold get_unassigned_events
    have hfil : (run_stream_inference store gap_threshold_ms ctr).1.filter
        (fun ev => decide (ev.stream_id = none ∧ ev.assignment_source ≠ "user")) = [] := by
      rw [List.filter_eq_nil_iff]
      intro ev hm
      simp only [decide_eq_true_eq]
      exact h ev hm
    rw [hfil]
    rfl
  generalize hs : (run_stream_inference store gap_threshold_ms ctr).1 = s1 at hempty ⊢
  unfold run_stream_inference
  simp [hempty]

/-- Fresh-id-counter-threaded iteration of run_stream_inference. -/
def inferIterate (gap_threshold_ms : Int) : Nat → List Event → Nat → List Event × Nat
  | 0, store, ctr => (store, ctr)
  | Nat.succ n, store, ctr =>
    inferIterate gap_threshold_ms n (run_stream_inference store gap_threshold_ms ctr).1
      (run_stream_inference store gap_threshold_ms ctr).2.1

theorem filter_id_eq_of_nodup (l : List Event) (ev : Event)
    (hnodup : (l.map Event.id).Nodup) (hmem : ev ∈ l) :
    l.filter (fun x => x.id = ev.id) = [ev] := by
  induction l with
  | nil => exact absurd hmem (List.not_mem_nil ev)
  | cons a l' ih =>
    simp only [List.map_cons, List.nodup_cons] at hnodup
    rcases List.mem_cons.mp hmem with rfl | hmem'
    · have hnil : l'.filter (fun x => x.id = ev.id) = [] := by
        rw [List.filter_eq_nil_iff]
        intro x hx
        simp only [decide_eq_true_eq]
        intro hxa
        exact hnodup.1 (hxa ▸ List.mem_map_of_mem Event.id hx)
      simp only [List.filter_cons, decide_eq_true_eq]
      simp [hnil]
    · have hne : ¬a.id = ev.id := by
        intro hae
        exact hnodup.1 (hae ▸ List.mem_map_of_mem Event.id hmem')
      simp only [List.filter_cons, decide_eq_true_eq]
      rw [if_neg hne]
      exact ih hnodup.2 hmem'

/-- C8: a user-pinned event survives any number of inference runs verbatim:
in the store after n runs, the (unique, by primary-key id uniqueness) event
carrying its id is the original event, with its stream_id in particular
unchanged.  Inference only ever touches events with null stream_id and
assignment_source different from user. -/
theorem user_pinned_stream_invariant (store : List Event) (gap_threshold_ms : Int)
    (ctr n : Nat) (ev : Event) (hnodup : (store.map Event.id).Nodup)
    (hmem : ev ∈ store) (huser : ev.assignment_source = "user") :
    (inferIterate gap_threshold_ms n store ctr).1.filter (fun x => x.id = ev.id) =
      [ev] := by
  induction n generalizing store ctr with
  | zero => exact filter_id_eq_of_nodup store ev hnodup hmem
  | succ n ih =>
    simp only [inferIterate]
    have hfix := run_stream_inference_user_fixed store gap_threshold_ms ctr ev
      hnodup hmem huser
    have hnodup' : ((run_stream_inference store gap_threshold_ms ctr).1.map
        Event.id).Nodup := by
      rw [run_stream_inference_ids]
      exact hnodup
    exact ih _ _ hnodup' hfix.1

/-- Witness for C8: a pinned event keeps stream PIN through three runs over a
store that also contains an unassigned event in the same directory. -/
theorem user_pinned_stream_invariant_witness :
    (inferIterate 1800000 3
        [{ id := "p", timestamp := 0, type := "tmux_scroll", cwd := some "/w",
           stream_id := some "PIN", assignment_source := "user" },
         { id := "u", timestamp := 1000, type := "tmux_scroll", cwd := some "/w",
           stream_id := none }]
        0).1.filter
      (fun x => x.id =
        ({ id := "p", timestamp := 0, type := "tmux_scroll", cwd := some "/w",
           stream_id := some "PIN", assignment_source := "user" } : Event).id) =
      [{ id := "p", timestamp := 0, type := "tmux_scroll", cwd := some "/w",
         stream_id := some "PIN", assignment_source := "user" }] :=
  user_pinned_stream_invariant _ 1800000 0 3 _ (by decide) (by decide) (by decide)

/-! ### C1: the direct-time sum is bounded by the window length -/

/-- Total direct milliseconds across all streams of a result. -/
def directSum (res : Results) : Int := (res.map (fun kv => kv.2.direct_ms)).sum

/-- The two synthetic placeholder types. -/
def isMarkerB (ev : Event) : Bool :=
  ev.type == "_idle_start" || ev.type == "_session_timeout"

/-- Timestamp of the first non-synthetic event of the list (end_dt if none):
the earliest instant at which direct accrual can resume once ineligible. -/
def firstRealTs (end_dt : Int) (es : List Event) : Int :=
  match es.find? (fun ev => !isMarkerB ev) with
  | some ev => ev.timestamp
  | none => end_dt

theorem floorSec_le (t : Int) : floorSec t ≤ t := by
  have := Int.emod_nonneg t (by norm_num : (1000 : Int) ≠ 0)
  unfold floorSec
  omega

theorem directSum_bumpDirect (res : Results) (k : String) (d : Int) :
    directSum (bumpDirect res k d) = directSum res + d := by
  induction res with
  | nil => simp [bumpDirect, directSum]
  | cons kv rest ih =>
    by_cases h : kv.1 = k
    · simp [bumpDirect, h, directSum]
      ring
    · simp only [bumpDirect, h, if_false, directSum, List.map_cons, List.sum_cons]
      simp only [directSum] at ih
      rw [ih]
      ring

theorem directSum_bumpDelegated (res : Results) (k : String) (d : Int) :
    directSum (bumpDelegated res k d) = directSum res := by
  induction res with
  | nil => simp [bumpDelegated, directSum]
  | cons kv rest ih =>
    by_cases h : kv.1 = k
    · simp [bumpDelegated, h, directSum]
    · simp only [bumpDelegated, h, if_false, directSum, List.map_cons, List.sum_cons]
      simp only [directSum] at ih
      rw [ih]

theorem directSum_delegatedFold (m : List (String × String))
    (active : List String) (d : Int) :
    ∀ res : Results,
      directSum (active.foldl
        (fun r sid =>
          match m.lookup sid with
          | some stream => if stream ≠ "" then bumpDelegated r stream d else r
          | none => r)
        res) = directSum res := by
  induction active with
  | nil => intro res; rfl
  | cons sid rest ih =>
    intro res
    simp only [List.foldl_cons]
    rw [ih]
    cases m.lookup sid with
    | none => rfl
    | some stream =>
      by_cases h : stream ≠ ""
      · simp [h, directSum_bumpDelegated]
      · simp [h]

theorem directSum_attributeStep (m : List (String × String)) (st : ReplayState)
    (res : Results) (d : Int) :
    directSum (attributeStep m st res d) =
      directSum res + (if eligibleDirect st then d else 0) := by
  unfold attributeStep
  rw [directSum_delegatedFold]
  by_cases h : eligibleDirect st
  · simp [h, directSum_bumpDirect]
  · simp [h]

theorem eligible_prune (st : ReplayState) (t T : Int) :
    eligibleDirect (_prune_stale_sessions st t T) = eligibleDirect st := rfl

theorem eligible_transition_marker (st : ReplayState) (ev : Event)
    (m : List (String × String)) (hm : isMarkerB ev = true)
    (h : eligibleDirect st = false) :
    eligibleDirect (_apply_transition st ev m) = false := by
  simp only [isMarkerB, Bool.or_eq_true, beq_iff_eq] at hm
  rcases hm with h1 | h1
  · simp [_apply_transition, h1, eligibleDirect]
  · have hne : ¬ev.type = "_idle_start" := by rw [h1]; decide
    simp only [_apply_transition, hne, if_false, h1, if_true]
    cases ev.session_id with
    | none => exact h
    | some sid =>
      by_cases hsid : sid = ""
      · simp [hsid, h]
      · simp only [hsid, if_false]
        simpa [eligibleDirect] using h

theorem firstRealTs_ge (end_dt t : Int) (es : List Event)
    (h1 : ∀ x ∈ es, t ≤ x.timestamp) (h2 : t ≤ end_dt) :
    t ≤ firstRealTs end_dt es := by
  unfold firstRealTs
  cases hf : es.find? (fun ev => !isMarkerB ev) with
  | none => exact h2
  | some x => exact h1 x (List.mem_of_find?_eq_some hf)

theorem firstRealTs_cons_marker (end_dt : Int) (ev : Event) (rest : List Event)
    (hm : isMarkerB ev = true) :
    firstRealTs end_dt (ev :: rest) = firstRealTs end_dt rest := by
  unfold firstRealTs
  rw [List.find?_cons_of_neg _ (by simp [hm])]

theorem firstRealTs_cons_real (end_dt : Int) (ev : Event) (rest : List Event)
    (hm : isMarkerB ev = false) :
    firstRealTs end_dt (ev :: rest) = ev.timestamp := by
  unfold firstRealTs
  rw [List.find?_cons_of_pos _ (by simp [hm])]

/-- The central accounting invariant of the replay loop: the direct total it
can still add is bounded by the distance from the current position (the
previous timestamp when direct accrual is on, the first non-synthetic
timestamp - at least the window start - when it is off) to the window end. -/
theorem replay_direct_bound (m : List (String × String)) (T end_dt : Int) :
    ∀ (es : List Event) (st : ReplayState) (res : Results) (last : Int),
      List.Pairwise (fun a b => a.timestamp ≤ b.timestamp) es →
      (∀ ev ∈ es, ev.timestamp ≤ end_dt) →
      last ≤ end_dt →
      directSum (replayLoop m T end_dt es st res last) ≤
        directSum res +
          (end_dt - (if eligibleDirect st then last else firstRealTs end_dt es)) := by
  intro es
  induction es with
  | nil =>
    intro st res last _ _ hlast
    simp only [replayLoop]
    by_cases hpos : end_dt - last > 0
    · simp only [hpos, if_true]
      rw [directSum_attributeStep, eligible_prune]
      by_cases hel : eligibleDirect st
      · simp [hel, firstRealTs]
      · simp [hel, firstRealTs]
    · simp only [hpos, if_false]
      by_cases hel : eligibleDirect st
      · simp only [hel, if_true]
        omega
      · simp only [hel, if_false, firstRealTs, List.find?_nil]
        omega
  | cons ev rest ih =>
    intro st res last hpw hall hlast
    have hpw' : List.Pairwise (fun a b => a.timestamp ≤ b.timestamp) rest :=
      (List.pairwise_cons.mp hpw).2
    have hhead : ∀ x ∈ rest, ev.timestamp ≤ x.timestamp :=
      (List.pairwise_cons.mp hpw).1
    have hevle : ev.timestamp ≤ end_dt := hall ev (List.mem_cons_self ev rest)
    have hall' : ∀ x ∈ rest, x.timestamp ≤ end_dt :=
      fun x hx => hall x (List.mem_cons_of_mem ev hx)
    have hfge : ev.timestamp ≤ firstRealTs end_dt rest :=
      firstRealTs_ge end_dt ev.timestamp rest hhead hevle
    simp only [replayLoop]
    have hstep := directSum_attributeStep m (_prune_stale_sessions st last T) res
      (ev.timestamp - last)
    rw [eligible_prune] at hstep
    have hrec := ih
      (_apply_transition (_prune_stale_sessions st last T) ev m)
      (attributeStep m (_prune_stale_sessions st last T) res (ev.timestamp - last))
      ev.timestamp hpw' hall' hevle
    rw [hstep] at hrec
    refine le_trans hrec ?_
    clear hrec hstep
    cases hel : eligibleDirect st with
    | true =>
      simp only [if_true]
      cases hel' :
          eligibleDirect (_apply_transition (_prune_stale_sessions st last T) ev m) with
      | true =>
        simp only [if_true]
        omega
      | false =>
        simp only [Bool.false_eq_true, if_false]
        omega
    | false =>
      simp only [Bool.false_eq_true, if_false, add_zero]
      cases hmk : isMarkerB ev with
      | true =>
        have hel' :
            eligibleDirect (_apply_transition (_prune_stale_sessions st last T) ev m)
              = false := by
          apply eligible_transition_marker _ _ _ hmk
          rw [eligible_prune, hel]
        rw [hel', firstRealTs_cons_marker end_dt ev rest hmk]
        simp only [Bool.false_eq_true, if_false]
        omega
      | false =>
        rw [firstRealTs_cons_real end_dt ev rest hmk]
        cases hel' :
            eligibleDirect (_apply_transition (_prune_stale_sessions st last T) ev m) with
        | true =>
          simp only [if_true]
          omega
        | false =>
          simp only [Bool.false_eq_true, if_false]
          omega

theorem insertIdleGo_mem_cases (attention_window_ms end_dt : Int) :
    ∀ (es : List Event),
      (∀ ev ∈ es, ev.timestamp ≤ end_dt) →
      ∀ (pending : Option Int),
      ∀ ev' ∈ insertIdleGo attention_window_ms end_dt pending es,
        ev' ∈ es ∨ (ev'.type = "_idle_start" ∧ ev'.timestamp ≤ end_dt) := by
  intro es
  induction es with
  | nil =>
    intro _ pending ev' hm
    cases pending with
    | none => exact absurd hm (List.not_mem_nil ev')
    | some p =>
      simp only [insertIdleGo] at hm
      by_cases hp : p ≤ end_dt
      · rw [if_pos hp] at hm
        rcases List.mem_singleton.mp hm with rfl
        exact Or.inr ⟨rfl, le_trans (floorSec_le p) hp⟩
      · rw [if_neg hp] at hm
        exact absurd hm (List.not_mem_nil ev')
  | cons ev rest ih =>
    intro hall pending ev' hm
    have hevle : ev.timestamp ≤ end_dt := hall ev (List.mem_cons_self ev rest)
    have hall' : ∀ x ∈ rest, x.timestamp ≤ end_dt :=
      fun x hx => hall x (List.mem_cons_of_mem ev hx)
    simp only [insertIdleGo, List.mem_append, List.mem_cons] at hm
    rcases hm with hfired | rfl | hrest
    · cases pending with
      | none => exact absurd hfired (List.not_mem_nil ev')
      | some p =>
        simp only at hfired
        by_cases hp : ev.timestamp ≥ p
        · rw [if_pos hp] at hfired
          rcases List.mem_singleton.mp hfired with rfl
          exact Or.inr ⟨rfl, le_trans (floorSec_le p) (le_trans hp hevle)⟩
        · rw [if_neg hp] at hfired
          exact absurd hfired (List.not_mem_nil ev')
    · exact Or.inl (List.mem_cons_self ev' rest)
    · rcases ih hall' _ ev' hrest with h | h
      · exact Or.inl (List.mem_cons_of_mem ev h)
      · exact Or.inr h

theorem insertTimeoutsGo_mem_cases (session_timeout_ms end_dt : Int) :
    ∀ (es : List Event),
      (∀ ev ∈ es, ev.timestamp ≤ end_dt) →
      ∀ (m : List (String × Int)),
      ∀ ev' ∈ insertTimeoutsGo session_timeout_ms end_dt m es,
        ev' ∈ es ∨ (ev'.type = "_session_timeout" ∧ ev'.timestamp ≤ end_dt) := by
  intro es
  induction es with
  | nil =>
    intro _ m ev' hm
    simp only [insertTimeoutsGo, List.mem_map] at hm
    obtain ⟨kv, hkv, rfl⟩ := hm
    have := (List.mem_filter.mp hkv).2
    simp only [decide_eq_true_eq] at this
    exact Or.inr ⟨rfl, le_trans (floorSec_le kv.2) this⟩
  | cons ev rest ih =>
    intro hall m ev' hm
    have hevle : ev.timestamp ≤ end_dt := hall ev (List.mem_cons_self ev rest)
    have hall' : ∀ x ∈ rest, x.timestamp ≤ end_dt :=
      fun x hx => hall x (List.mem_cons_of_mem ev hx)
    simp only [insertTimeoutsGo, List.mem_append, List.mem_cons] at hm
    rcases hm with hfired | rfl | hrest
    · rw [List.mem_map] at hfired
      obtain ⟨kv, hkv, rfl⟩ := hfired
      have := (List.mem_filter.mp hkv).2
      simp only [decide_eq_true_eq] at this
      exact Or.inr ⟨rfl, le_trans (floorSec_le kv.2) (le_trans this hevle)⟩
    · exact Or.inl (List.mem_cons_self ev' rest)
    · rcases ih hall' _ ev' hrest with h | h
      · exact Or.inl (List.mem_cons_of_mem ev h)
      · exact Or.inr h

theorem windowReplayEvents_mem_facts (fetched : List Event)
    (start_dt end_dt attention_window_ms session_timeout_ms : Int) :
    ∀ ev ∈ windowReplayEvents fetched start_dt end_dt attention_window_ms
        session_timeout_ms,
      ev.timestamp ≤ end_dt ∧ (isMarkerB ev = false → start_dt ≤ ev.timestamp) := by
  intro ev hm
  unfold windowReplayEvents at hm
  rw [(List.perm_insertionSort replayLe _).mem_iff] at hm
  have hwindow0 : ∀ x ∈ (sortByTs fetched).filter
      (fun x => decide (start_dt ≤ x.timestamp ∧ x.timestamp ≤ end_dt)),
      start_dt ≤ x.timestamp ∧ x.timestamp ≤ end_dt := by
    intro x hx
    have := (List.mem_filter.mp hx).2
    simp only [decide_eq_true_eq] at this
    exact this
  have hw0le : ∀ x ∈ (sortByTs fetched).filter
      (fun x => decide (start_dt ≤ x.timestamp ∧ x.timestamp ≤ end_dt)),
      x.timestamp ≤ end_dt := fun x hx => (hwindow0 x hx).2
  have hw1 := insertIdleGo_mem_cases attention_window_ms end_dt _ hw0le
  have hw1le : ∀ x ∈ _insert_idle_boundaries
      ((sortByTs fetched).filter
        (fun x => decide (start_dt ≤ x.timestamp ∧ x.timestamp ≤ end_dt)))
      (_seed_initial_state ((sortByTs fetched).filter
        (fun x => decide (x.timestamp < start_dt))) start_dt session_timeout_ms)
      attention_window_ms end_dt,
      x.timestamp ≤ end_dt := by
    intro x hx
    unfold _insert_idle_boundaries at hx
    rcases hw1 _ x hx with h | h
    · exact hw0le x h
    · exact h.2
  have hw2 := insertTimeoutsGo_mem_cases session_timeout_ms end_dt _ hw1le
  unfold _insert_session_timeouts at hm
  rcases hw2 _ ev hm with h | h
  · unfold _insert_idle_boundaries at h
    rcases hw1 _ ev h with h' | h'
    · exact ⟨(hwindow0 ev h').2, fun _ => (hwindow0 ev h').1⟩
    · refine ⟨h'.2, fun hreal => ?_⟩
      rw [isMarkerB, h'.1] at hreal
      simp at hreal
  · refine ⟨h.2, fun hreal => ?_⟩
    rw [isMarkerB, h.1] at hreal
    simp at hreal

theorem windowReplayEvents_pairwise (fetched : List Event)
    (start_dt end_dt attention_window_ms session_timeout_ms : Int) :
    List.Pairwise (fun a b => a.timestamp ≤ b.timestamp)
      (windowReplayEvents fetched start_dt end_dt attention_window_ms
        session_timeout_ms) := by
  have hs : List.Sorted replayLe
      (windowReplayEvents fetched start_dt end_dt attention_window_ms
        session_timeout_ms) := by
    unfold windowReplayEvents
    exact List.sorted_insertionSort replayLe _
  refine List.Pairwise.imp ?_ hs
  intro a b hab
  rcases hab with h | ⟨h, _⟩
  · exact le_of_lt h
  · exact le_of_eq h

theorem firstRealTs_ge_start (end_dt start_dt : Int) (es : List Event)
    (h : ∀ ev ∈ es, isMarkerB ev = false → start_dt ≤ ev.timestamp)
    (hse : start_dt ≤ end_dt) : start_dt ≤ firstRealTs end_dt es := by
  unfold firstRealTs
  cases hf : es.find? (fun ev => !isMarkerB ev) with
  | none => exact hse
  | some x =>
    have hpred := List.find?_some hf
    simp only [Bool.not_eq_true'] at hpred
    exact h x (List.mem_of_find?_eq_some hf) hpred

/-- C1: over any window with s ≤ e, the direct_ms values returned by
calculate_time sum, across all streams, to at most the wall-clock window
length e - s (delegated_ms is not so bounded). -/
theorem calculate_time_direct_sum_le (store : List Event) (start end_ : Int)
    (attention_window_ms session_timeout_ms : Int) (hse : start ≤ end_) :
    directSum (calculate_time store start end_ attention_window_ms
        session_timeout_ms) ≤ end_ - start := by
  unfold calculate_time calculate_time_core
  have hfacts := windowReplayEvents_mem_facts
    (store.filter (fun ev =>
      floorSec (start - max attention_window_ms session_timeout_ms) ≤ ev.timestamp ∧
        ev.timestamp < end_))
    start end_ attention_window_ms session_timeout_ms
  have hbound := replay_direct_bound
    (_load_session_stream_map store) session_timeout_ms end_
    (windowReplayEvents
      (store.filter (fun ev =>
        floorSec (start - max attention_window_ms session_timeout_ms) ≤ ev.timestamp ∧
          ev.timestamp < end_))
      start end_ attention_window_ms session_timeout_ms)
    (_seed_initial_state
      ((sortByTs (store.filter (fun ev =>
        floorSec (start - max attention_window_ms session_timeout_ms) ≤ ev.timestamp ∧
          ev.timestamp < end_))).filter
        (fun ev => decide (ev.timestamp < start)))
      start session_timeout_ms)
    [] start
    (windowReplayEvents_pairwise _ _ _ _ _)
    (fun ev hm => (hfacts ev hm).1)
    hse
  refine le_trans hbound ?_
  have hzero : directSum ([] : Results) = 0 := rfl
  rw [hzero, zero_add]
  by_cases hel : eligibleDirect
      (_seed_initial_state
        ((sortByTs (store.filter (fun ev =>
          floorSec (start - max attention_window_ms session_timeout_ms) ≤ ev.timestamp ∧
            ev.timestamp < end_))).filter
          (fun ev => decide (ev.timestamp < start)))
        start session_timeout_ms)
  · simp only [hel, if_true]
    omega
  · simp only [hel, if_false]
    have := firstRealTs_ge_start end_ start _
      (fun ev hm => (hfacts ev hm).2) hse
    omega

/-- Witness for C1 on a concrete window and store. -/
theorem calculate_time_direct_sum_le_witness :
    directSum (calculate_time
        [{ id := "w", timestamp := 100000, type := "tmux_pane_focus",
           stream_id := some "X" }]
        0 300000 120000 1800000) ≤ 300000 - 0 :=
  calculate_time_direct_sum_le _ 0 300000 120000 1800000 (by decide)
